import Mathlib

/-!
Shallow embedding of the core of the `latex-streamlit` repository
(`panel_drawer.py` and `graph_builder.py`), with theorems checking the
natural-language specification against the code.

Numeric modelling: Python `int` values are `ℕ` (all parsed values are
non-negative), Python `float` arithmetic is modelled exactly over `ℚ`
(every constant in the source — 182, 91, 3, 1.5, 0.003, 0.0005 — is an
exact rational, and the source uses only +, -, *, /, ** on them).
Fallible Python code (`raise ValueError`) is modelled with `Except String`.
-/

namespace Solarix

/-! ### `parse_series_name` (panel_drawer.py lines 6-34)

`re.match(r'(\d+)x(\d+)', s)` anchors at the start of the string: it
succeeds exactly when the string starts with a non-empty digit run,
followed by a literal 'x', followed by at least one digit.  Because a
digit run can never be shortened to expose an 'x' (digits are not 'x'),
greedy matching with backtracking is equivalent to: group 1 is the
maximal leading digit run, group 2 the maximal digit run after the 'x'. -/

def digitsToNat (l : List Char) : ℕ :=
  l.foldl (fun n c => 10 * n + (c.toNat - 48)) 0

/-- `re.match(r'(\d+)x(\d+)', s)`, returning the two captured integers.
Group 1 is the maximal leading digit run `s.takeWhile Char.isDigit`; the
remainder must continue with a literal 'x' and then group 2, a further
non-empty digit run. -/
def matchDims (s : List Char) : Option (ℕ × ℕ) :=
  if (s.takeWhile Char.isDigit).isEmpty then none
  else
    match s.dropWhile Char.isDigit with
    | 'x' :: r2 =>
      if (r2.takeWhile Char.isDigit).isEmpty then none
      else some (digitsToNat (s.takeWhile Char.isDigit),
        digitsToNat (r2.takeWhile Char.isDigit))
    | _ => none

/-- One attempt of `r's(\d+)p(\d+)'` (case-insensitive) anchored at the
head of `s`.  As with the dimension pattern, the digit runs can never be
shortened to expose the 'p', so the greedy semantics are deterministic. -/
def matchSPAt : List Char → Option (ℕ × ℕ)
  | [] => none
  | c :: r =>
    if c = 's' ∨ c = 'S' then
      if (r.takeWhile Char.isDigit).isEmpty then none
      else
        match r.dropWhile Char.isDigit with
        | c2 :: r2 =>
          if c2 = 'p' ∨ c2 = 'P' then
            if (r2.takeWhile Char.isDigit).isEmpty then none
            else some (digitsToNat (r.takeWhile Char.isDigit),
              digitsToNat (r2.takeWhile Char.isDigit))
          else none
        | [] => none
    else none

/-- `re.search(r's(\d+)p(\d+)', s, re.IGNORECASE)`: try every position
left to right, returning the leftmost match. -/
def searchSP : List Char → Option (ℕ × ℕ)
  | [] => none
  | c :: r =>
    match matchSPAt (c :: r) with
    | some x => some x
    | none => searchSP r

/-- `parse_series_name` (panel_drawer.py lines 6-34).  Note the source
assigns the *first* captured dimension to `height` and the *second* to
`width` (lines 21-22) and returns
`(width, height, total_cells, parallel_strings)`. -/
def parse_series_name (series_name : String) : Except String (ℕ × ℕ × ℕ × ℕ) :=
  match matchDims series_name.data with
  | none => .error ("Cannot parse dimensions from: " ++ series_name)
  | some (g1, g2) =>
    let height := g1
    let width := g2
    match searchSP series_name.data with
    | none => .error ("Cannot parse cell configuration from: " ++ series_name)
    | some (cells_series, parallel_strings) =>
      let total_cells := cells_series * parallel_strings
      .ok (width, height, total_cells, parallel_strings)

/-! ### `calculate_cell_layout` (panel_drawer.py lines 37-90) -/

/-- The cell footprint and gap constants selected on lines 44-62. -/
structure Footprint where
  cell_w : ℚ
  cell_h : ℚ
  h_gap : ℚ
  v_gap : ℚ
deriving Repr, DecidableEq

/-- Lines 44-62: orientation-dependent constants.  `is_landscape` is the
strict comparison `panel_width > panel_height`. -/
def footprint (panel_width panel_height : ℚ) : Footprint :=
  if panel_width > panel_height then
    { cell_w := 182, cell_h := 91, h_gap := 3, v_gap := 3/2 }
  else
    { cell_w := 91, cell_h := 182, h_gap := 3/2, v_gap := 3 }

/-- Line 71: `req_width = h * cell_w + (h - 1) * h_gap`. -/
def reqWidth (cell_w h_gap : ℚ) (h : ℕ) : ℚ := h * cell_w + ((h : ℚ) - 1) * h_gap

/-- Line 72: `req_height = v * cell_h + (v - 1) * v_gap`. -/
def reqHeight (cell_h v_gap : ℚ) (v : ℕ) : ℚ := v * cell_h + ((v : ℚ) - 1) * v_gap

/-- Lines 77-79: `avg_usage = (width_usage + height_usage) / 2`. -/
def avgUsage (pw ph cell_w cell_h h_gap v_gap : ℚ) (h v : ℕ) : ℚ :=
  (reqWidth cell_w h_gap h / pw + reqHeight cell_h v_gap v / ph) / 2

/-- One entry of the `possible_configs` list: `(h, v, avg_usage)`. -/
structure Config where
  h : ℕ
  v : ℕ
  usage : ℚ
deriving Repr, DecidableEq

/-- Loop body, lines 66-81: for a candidate `h`, yield a config when
`total_cells % h == 0` and the required rectangle fits the panel. -/
def mkConfig (pw ph cell_w cell_h h_gap v_gap : ℚ) (total_cells h : ℕ) : Option Config :=
  if total_cells % h = 0 then
    let v := total_cells / h
    if reqWidth cell_w h_gap h ≤ pw ∧ reqHeight cell_h v_gap v ≤ ph then
      some ⟨h, v, avgUsage pw ph cell_w cell_h h_gap v_gap h v⟩
    else none
  else none

/-- Lines 64-81: `for h in range(1, total_cells + 1)`, collecting the
surviving configurations in ascending order of `h`. -/
def possible_configs (pw ph cell_w cell_h h_gap v_gap : ℚ) (total_cells : ℕ) : List Config :=
  ((List.range total_cells).map (· + 1)).filterMap
    (mkConfig pw ph cell_w cell_h h_gap v_gap total_cells)

/-- Descending-usage ordering used on line 87
(`sort(key=lambda x: x[2], reverse=True)`). -/
def cfgGe (a b : Config) : Prop := b.usage ≤ a.usage

instance : DecidableRel cfgGe := fun a b => inferInstanceAs (Decidable (b.usage ≤ a.usage))

/-- Line 87: Python's `list.sort` is a stable sort; with `reverse=True` it
keeps the original relative order of entries with equal keys.  Insertion
sort on `cfgGe` is the same stable descending sort. -/
def sortConfigs (l : List Config) : List Config := l.insertionSort cfgGe

/-- `calculate_cell_layout` (lines 37-90): constants by orientation,
divisor enumeration, emptiness check (line 83), stable descending sort by
usage, and the head of the sorted list (line 88).  Returns
`(cells_horizontal, cells_vertical, cell_w, cell_h, h_gap, v_gap)`. -/
def calculate_cell_layout (panel_width panel_height : ℚ) (total_cells : ℕ) :
    Except String (ℕ × ℕ × ℚ × ℚ × ℚ × ℚ) :=
  let fp := footprint panel_width panel_height
  let configs := possible_configs panel_width panel_height
    fp.cell_w fp.cell_h fp.h_gap fp.v_gap total_cells
  match sortConfigs configs with
  | [] => .error ("Cannot fit " ++ toString total_cells ++ " cells in panel")
  | best :: _ => .ok (best.h, best.v, fp.cell_w, fp.cell_h, fp.h_gap, fp.v_gap)

/-- A divisor pair `(h, v)` of `total_cells` whose occupied rectangle fits
the panel under the panel's own orientation constants: exactly the pairs
enumerated and kept by lines 66-81. -/
def FitsPair (pw ph : ℚ) (total_cells h v : ℕ) : Prop :=
  1 ≤ h ∧ 1 ≤ v ∧ h * v = total_cells ∧
    reqWidth (footprint pw ph).cell_w (footprint pw ph).h_gap h ≤ pw ∧
    reqHeight (footprint pw ph).cell_h (footprint pw ph).v_gap v ≤ ph

/-- The usage score of a pair under the panel's own orientation constants. -/
def usageAt (pw ph : ℚ) (h v : ℕ) : ℚ :=
  avgUsage pw ph (footprint pw ph).cell_w (footprint pw ph).cell_h
    (footprint pw ph).h_gap (footprint pw ph).v_gap h v

/-! ### Lemmas about the layout enumeration and selection -/

theorem mkConfig_eq_some_iff {pw ph cw ch hg vg : ℚ} {tc h : ℕ} {c : Config} :
    mkConfig pw ph cw ch hg vg tc h = some c ↔
      tc % h = 0 ∧ reqWidth cw hg h ≤ pw ∧ reqHeight ch vg (tc / h) ≤ ph ∧
        c = ⟨h, tc / h, avgUsage pw ph cw ch hg vg h (tc / h)⟩ := by
  constructor
  · intro hc
    unfold mkConfig at hc
    by_cases h1 : tc % h = 0
    · rw [if_pos h1] at hc
      by_cases h2 : reqWidth cw hg h ≤ pw ∧ reqHeight ch vg (tc / h) ≤ ph
      · rw [if_pos h2] at hc
        exact ⟨h1, h2.1, h2.2, (Option.some.injEq _ _ ▸ hc).symm⟩
      · rw [if_neg h2] at hc
        exact absurd hc (by simp)
    · rw [if_neg h1] at hc
      exact absurd hc (by simp)
  · rintro ⟨h1, h2, h3, rfl⟩
    unfold mkConfig
    rw [if_pos h1, if_pos ⟨h2, h3⟩]

theorem mem_possible_configs_iff {pw ph cw ch hg vg : ℚ} {tc : ℕ} {c : Config} :
    c ∈ possible_configs pw ph cw ch hg vg tc ↔
      1 ≤ c.h ∧ c.h ≤ tc ∧ tc % c.h = 0 ∧ c.v = tc / c.h ∧
        reqWidth cw hg c.h ≤ pw ∧ reqHeight ch vg c.v ≤ ph ∧
        c.usage = avgUsage pw ph cw ch hg vg c.h c.v := by
  unfold possible_configs
  rw [List.mem_filterMap]
  constructor
  · rintro ⟨a, ha, hc⟩
    rw [List.mem_map] at ha
    obtain ⟨i, hi, rfl⟩ := ha
    rw [List.mem_range] at hi
    rw [mkConfig_eq_some_iff] at hc
    obtain ⟨h1, h2, h3, rfl⟩ := hc
    exact ⟨Nat.le_add_left 1 i, by show i + 1 ≤ tc; omega, h1, rfl, h2, h3, rfl⟩
  · rintro ⟨h1, h2, h3, h4, h5, h6, h7⟩
    refine ⟨c.h, ?_, ?_⟩
    · rw [List.mem_map]
      exact ⟨c.h - 1, by rw [List.mem_range]; omega, by omega⟩
    · rw [mkConfig_eq_some_iff]
      refine ⟨h3, h5, h4 ▸ h6, ?_⟩
      cases c
      simp_all

theorem filterMap_pairwise_h (f : ℕ → Option Config)
    (hf : ∀ a c, f a = some c → c.h = a) :
    ∀ l : List ℕ, l.Pairwise (· < ·) →
      (l.filterMap f).Pairwise (fun a b => a.h < b.h) := by
  intro l
  induction l with
  | nil => intro _; simp
  | cons a l ih =>
    intro hp
    rw [List.pairwise_cons] at hp
    cases hfa : f a with
    | none => simpa [List.filterMap_cons, hfa] using ih hp.2
    | some c =>
      simp only [List.filterMap_cons, hfa]
      rw [List.pairwise_cons]
      refine ⟨?_, ih hp.2⟩
      intro d hd
      rw [List.mem_filterMap] at hd
      obtain ⟨b, hb, hdb⟩ := hd
      rw [hf a c hfa, hf b d hdb]
      exact hp.1 b hb

theorem possible_configs_pairwise (pw ph cw ch hg vg : ℚ) (tc : ℕ) :
    (possible_configs pw ph cw ch hg vg tc).Pairwise (fun a b => a.h < b.h) := by
  unfold possible_configs
  refine filterMap_pairwise_h _ ?_ _ ?_
  · intro a c hc
    rw [mkConfig_eq_some_iff] at hc
    rw [hc.2.2.2]
  · exact (List.pairwise_lt_range tc).map _ (fun hab => by omega)

/-- The head of the stable descending sort is an element of the list that
maximises `usage`, and everything strictly before it in the original list
has strictly smaller `usage` (stability of the sort). -/
theorem sortConfigs_head_spec (l : List Config) :
    ∀ b t, sortConfigs l = b :: t →
      (∀ x ∈ l, x.usage ≤ b.usage) ∧
        ∃ l1 l2, l = l1 ++ b :: l2 ∧ ∀ x ∈ l1, x.usage < b.usage := by
  induction l with
  | nil => intro b t h; simp [sortConfigs, List.insertionSort] at h
  | cons a l ih =>
    intro b t h
    rw [sortConfigs, List.insertionSort] at h
    cases hsl : List.insertionSort cfgGe l with
    | nil =>
      have hl : l = [] := ((hsl ▸ List.perm_insertionSort cfgGe l)).symm.eq_nil
      rw [hsl, List.orderedInsert_nil] at h
      obtain ⟨rfl, rfl⟩ : a = b ∧ ([] : List Config) = t := by
        injection h with h1 h2
        exact ⟨h1, h2⟩
      subst hl
      refine ⟨by simp, [], [], rfl, by simp⟩
    | cons m t' =>
      rw [hsl, List.orderedInsert] at h
      have ihm := ih m t' hsl
      by_cases hr : cfgGe a m
      · rw [if_pos hr] at h
        obtain ⟨rfl, rfl⟩ : a = b ∧ m :: t' = t := by
          injection h with h1 h2
          exact ⟨h1, h2⟩
        constructor
        · intro x hx
          rcases List.mem_cons.mp hx with rfl | hx
          · exact le_refl _
          · exact le_trans (ihm.1 x hx) hr
        · exact ⟨[], l, rfl, by simp⟩
      · rw [if_neg hr] at h
        obtain ⟨rfl, -⟩ : m = b ∧ List.orderedInsert cfgGe a t' = t := by
          injection h with h1 h2
          exact ⟨h1, h2⟩
        have ha : a.usage < m.usage := by
          have : ¬ m.usage ≤ a.usage := hr
          exact lt_of_not_le this
        constructor
        · intro x hx
          rcases List.mem_cons.mp hx with rfl | hx
          · exact le_of_lt ha
          · exact ihm.1 x hx
        · obtain ⟨l1, l2, hdec, hlt⟩ := ihm.2
          refine ⟨a :: l1, l2, by rw [hdec]; rfl, ?_⟩
          intro x hx
          rcases List.mem_cons.mp hx with rfl | hx
          · exact ha
          · exact hlt x hx

/-- A fitting divisor pair yields a member of `possible_configs` (under
the panel's own footprint). -/
theorem fitsPair_mem {pw ph : ℚ} {tc h v : ℕ} (hf : FitsPair pw ph tc h v) :
    (⟨h, v, usageAt pw ph h v⟩ : Config) ∈
      possible_configs pw ph (footprint pw ph).cell_w (footprint pw ph).cell_h
        (footprint pw ph).h_gap (footprint pw ph).v_gap tc := by
  obtain ⟨h1, hv1, hmul, hw, hh⟩ := hf
  have hvdiv : tc / h = v := by
    rw [← hmul]
    exact Nat.mul_div_cancel_left v h1
  rw [mem_possible_configs_iff]
  refine ⟨h1, ?_, ?_, hvdiv.symm, hw, hh, rfl⟩
  · calc h = h * 1 := (mul_one h).symm
    _ ≤ h * v := Nat.mul_le_mul_left h hv1
    _ = tc := hmul
  · rw [← hmul]
    exact Nat.mul_mod_right h v

/-- A member of `possible_configs` (under the panel's own footprint) is a
fitting divisor pair and carries exactly its usage score. -/
theorem mem_fitsPair {pw ph : ℚ} {tc : ℕ} {c : Config}
    (hc : c ∈ possible_configs pw ph (footprint pw ph).cell_w (footprint pw ph).cell_h
      (footprint pw ph).h_gap (footprint pw ph).v_gap tc) :
    FitsPair pw ph tc c.h c.v ∧ c.usage = usageAt pw ph c.h c.v := by
  rw [mem_possible_configs_iff] at hc
  obtain ⟨h1, hle, hmod, hv, hw, hh, hu⟩ := hc
  have hdvd := Nat.dvd_of_mod_eq_zero hmod
  have hmul : c.h * c.v = tc := by
    rw [hv]
    exact Nat.mul_div_cancel' hdvd
  have hv1 : 1 ≤ c.v := by
    rw [hv]
    exact (Nat.one_le_div_iff h1).mpr hle
  exact ⟨⟨h1, hv1, hmul, hw, hh⟩, hu⟩

theorem sortConfigs_eq_nil {l : List Config} (h : sortConfigs l = []) : l = [] := by
  have hp : List.Perm (sortConfigs l) l := List.perm_insertionSort cfgGe l
  rw [h] at hp
  exact hp.symm.eq_nil

/-- C2: for every (panelWidth, panelHeight, totalCells) for which at least
one divisor pair fits, `calculate_cell_layout` returns the fitting divisor
pair `(h, v)` whose average fractional usage is maximal, and among pairs
with equal maximal score it returns the one with the smallest `h`
(ascending enumeration order is preserved through the stable selection). -/
theorem layout_selects_max_usage_min_h (pw ph : ℚ) (tc : ℕ)
    (hex : ∃ h v, FitsPair pw ph tc h v) :
    ∃ h v, calculate_cell_layout pw ph tc =
        .ok (h, v, (footprint pw ph).cell_w, (footprint pw ph).cell_h,
          (footprint pw ph).h_gap, (footprint pw ph).v_gap) ∧
      FitsPair pw ph tc h v ∧
      (∀ h' v', FitsPair pw ph tc h' v' →
        usageAt pw ph h' v' ≤ usageAt pw ph h v) ∧
      (∀ h' v', FitsPair pw ph tc h' v' →
        usageAt pw ph h' v' = usageAt pw ph h v → h ≤ h') := by
  obtain ⟨h0, v0, hf0⟩ := hex
  have hmem0 := fitsPair_mem hf0
  cases hsort : sortConfigs (possible_configs pw ph (footprint pw ph).cell_w
      (footprint pw ph).cell_h (footprint pw ph).h_gap (footprint pw ph).v_gap tc) with
  | nil =>
    exfalso
    have hnil : possible_configs pw ph (footprint pw ph).cell_w (footprint pw ph).cell_h
        (footprint pw ph).h_gap (footprint pw ph).v_gap tc = [] :=
      sortConfigs_eq_nil hsort
    rw [hnil] at hmem0
    exact absurd hmem0 (List.not_mem_nil _)
  | cons best rest =>
    have hspec := sortConfigs_head_spec _ best rest hsort
    obtain ⟨l1, l2, hdec, hl1lt⟩ := hspec.2
    have hbestmem : best ∈ possible_configs pw ph (footprint pw ph).cell_w
        (footprint pw ph).cell_h (footprint pw ph).h_gap (footprint pw ph).v_gap tc := by
      rw [hdec]
      exact List.mem_append_right l1 (List.mem_cons_self _ _)
    obtain ⟨hbfits, hbu⟩ := mem_fitsPair hbestmem
    refine ⟨best.h, best.v, ?_, hbfits, ?_, ?_⟩
    · simp only [calculate_cell_layout]
      rw [hsort]
    · intro h' v' hf'
      have hmem' := fitsPair_mem hf'
      have hle : usageAt pw ph h' v' ≤ best.usage := hspec.1 _ hmem'
      exact hbu ▸ hle
    · intro h' v' hf' hequ
      have hmem' := fitsPair_mem hf'
      have hpw := possible_configs_pairwise pw ph (footprint pw ph).cell_w
        (footprint pw ph).cell_h (footprint pw ph).h_gap (footprint pw ph).v_gap tc
      rw [hdec] at hmem' hpw
      rcases List.mem_append.mp hmem' with hin1 | hin2
      · exfalso
        have hlt' : usageAt pw ph h' v' < best.usage := hl1lt _ hin1
        rw [hequ, ← hbu] at hlt'
        exact lt_irrefl _ hlt'
      · rcases List.mem_cons.mp hin2 with heq | hin2'
        · rw [← heq]
        · have hp2 := (List.pairwise_append.mp hpw).2.1
          exact le_of_lt (List.rel_of_pairwise_cons hp2 hin2')

/-- Witness for C2: for the sample panel 670×1745 with 54 cells, (6, 9)
fits, so the theorem applies. -/
theorem layout_selects_max_usage_min_h_witness :
    (∃ h v, FitsPair 670 1745 54 h v) ∧
      (∃ h v, calculate_cell_layout 670 1745 54 =
          .ok (h, v, (footprint 670 1745).cell_w, (footprint 670 1745).cell_h,
            (footprint 670 1745).h_gap, (footprint 670 1745).v_gap) ∧
        FitsPair 670 1745 54 h v ∧
        (∀ h' v', FitsPair 670 1745 54 h' v' →
          usageAt 670 1745 h' v' ≤ usageAt 670 1745 h v) ∧
        (∀ h' v', FitsPair 670 1745 54 h' v' →
          usageAt 670 1745 h' v' = usageAt 670 1745 h v → h ≤ h')) :=
  have hfit : FitsPair 670 1745 54 6 9 := by
    refine ⟨by norm_num, by norm_num, by norm_num, ?_, ?_⟩ <;>
      norm_num [footprint, reqWidth, reqHeight]
  ⟨⟨6, 9, hfit⟩, layout_selects_max_usage_min_h 670 1745 54 ⟨6, 9, hfit⟩⟩

/-- C3: whenever a feasible factorization exists, `calculate_cell_layout`
returns `(h, v)` with `h * v = totalCells` exactly and an occupied
rectangle within the panel bounds on both axes. -/
theorem layout_exact_factorization_fits (pw ph : ℚ) (tc : ℕ)
    (hex : ∃ h v, FitsPair pw ph tc h v) :
    ∃ h v, calculate_cell_layout pw ph tc =
        .ok (h, v, (footprint pw ph).cell_w, (footprint pw ph).cell_h,
          (footprint pw ph).h_gap, (footprint pw ph).v_gap) ∧
      h * v = tc ∧
      reqWidth (footprint pw ph).cell_w (footprint pw ph).h_gap h ≤ pw ∧
      reqHeight (footprint pw ph).cell_h (footprint pw ph).v_gap v ≤ ph := by
  obtain ⟨h0, v0, hf0⟩ := hex
  have hmem0 := fitsPair_mem hf0
  cases hsort : sortConfigs (possible_configs pw ph (footprint pw ph).cell_w
      (footprint pw ph).cell_h (footprint pw ph).h_gap (footprint pw ph).v_gap tc) with
  | nil =>
    exfalso
    have hnil : possible_configs pw ph (footprint pw ph).cell_w (footprint pw ph).cell_h
        (footprint pw ph).h_gap (footprint pw ph).v_gap tc = [] :=
      sortConfigs_eq_nil hsort
    rw [hnil] at hmem0
    exact absurd hmem0 (List.not_mem_nil _)
  | cons best rest =>
    have hspec := sortConfigs_head_spec _ best rest hsort
    obtain ⟨l1, l2, hdec, -⟩ := hspec.2
    have hbestmem : best ∈ possible_configs pw ph (footprint pw ph).cell_w
        (footprint pw ph).cell_h (footprint pw ph).h_gap (footprint pw ph).v_gap tc := by
      rw [hdec]
      exact List.mem_append_right l1 (List.mem_cons_self _ _)
    obtain ⟨⟨-, -, hmul, hw, hh⟩, -⟩ := mem_fitsPair hbestmem
    refine ⟨best.h, best.v, ?_, hmul, hw, hh⟩
    simp only [calculate_cell_layout]
    rw [hsort]

/-- Witness for C3: same sample panel as the C2 witness. -/
theorem layout_exact_factorization_fits_witness :
    (∃ h v, FitsPair 670 1745 54 h v) ∧
      (∃ h v, calculate_cell_layout 670 1745 54 =
          .ok (h, v, (footprint 670 1745).cell_w, (footprint 670 1745).cell_h,
            (footprint 670 1745).h_gap, (footprint 670 1745).v_gap) ∧
        h * v = 54 ∧
        reqWidth (footprint 670 1745).cell_w (footprint 670 1745).h_gap h ≤ 670 ∧
        reqHeight (footprint 670 1745).cell_h (footprint 670 1745).v_gap v ≤ 1745) :=
  have hfit : FitsPair 670 1745 54 6 9 := by
    refine ⟨by norm_num, by norm_num, by norm_num, ?_, ?_⟩ <;>
      norm_num [footprint, reqWidth, reqHeight]
  ⟨⟨6, 9, hfit⟩, layout_exact_factorization_fits 670 1745 54 ⟨6, 9, hfit⟩⟩

/-- C8: when no divisor pair of `totalCells` fits the panel,
`calculate_cell_layout` fails with an error; it never silently returns a
layout. -/
theorem layout_infeasible_error (pw ph : ℚ) (tc : ℕ)
    (hno : ∀ h v, ¬ FitsPair pw ph tc h v) :
    ∃ msg, calculate_cell_layout pw ph tc = .error msg := by
  have hnil : possible_configs pw ph (footprint pw ph).cell_w (footprint pw ph).cell_h
      (footprint pw ph).h_gap (footprint pw ph).v_gap tc = [] := by
    cases hc : possible_configs pw ph (footprint pw ph).cell_w (footprint pw ph).cell_h
        (footprint pw ph).h_gap (footprint pw ph).v_gap tc with
    | nil => rfl
    | cons c t =>
      exfalso
      have hmem : c ∈ possible_configs pw ph (footprint pw ph).cell_w
          (footprint pw ph).cell_h (footprint pw ph).h_gap (footprint pw ph).v_gap tc := by
        rw [hc]
        exact List.mem_cons_self c t
      exact hno c.h c.v (mem_fitsPair hmem).1
  refine ⟨"Cannot fit " ++ toString tc ++ " cells in panel", ?_⟩
  simp only [calculate_cell_layout]
  rw [hnil]
  rfl

/-- Witness for C8: a 1×1 mm panel cannot hold one 91×182 mm cell. -/
theorem layout_infeasible_error_witness :
    (∀ h v, ¬ FitsPair 1 1 1 h v) ∧
      ∃ msg, calculate_cell_layout 1 1 1 = .error msg :=
  have hno : ∀ h v, ¬ FitsPair 1 1 1 h v := by
    rintro h v ⟨h1, hv1, hmul, hrw, -⟩
    have hd : h ≤ 1 := Nat.le_of_dvd one_pos ⟨v, hmul.symm⟩
    have : h = 1 := le_antisymm hd h1
    subst this
    norm_num [footprint, reqWidth] at hrw
  ⟨hno, layout_infeasible_error 1 1 1 hno⟩

/-! ### `draw_panel_sketch` (panel_drawer.py lines 93-161)

The drawing calls themselves (figure creation, rectangles, labels,
`savefig`) are external side effects; what the function computes before
drawing — parsed values, the swapped panel dimensions and the cell layout
— is captured in `SketchData`.  The `try`/`except` wrapper is the
`Except`-to-`Bool` collapse in `draw_panel_sketch`. -/

/-- The values the sketch is drawn from (lines 99-109). -/
structure SketchData where
  panel_width : ℕ
  panel_height : ℕ
  cells_h : ℕ
  cells_v : ℕ
  cell_w : ℚ
  cell_h : ℚ
  h_gap : ℚ
  v_gap : ℚ
deriving Repr, DecidableEq

/-- The body of the `try` block (lines 99-109): parse, swap the dimensions
to portrait (lines 103-104), and compute the layout from the swapped
dimensions (lines 107-109).  Any raised error propagates. -/
def drawPanelSketchCore (series_name : String) : Except String SketchData :=
  match parse_series_name series_name with
  | .error e => .error e
  | .ok (orig_width, orig_height, total_cells, _parallel_strings) =>
    let panel_width := if orig_width < orig_height then orig_width else orig_height
    let panel_height := if orig_height > orig_width then orig_height else orig_width
    match calculate_cell_layout (panel_width : ℚ) (panel_height : ℚ) total_cells with
    | .error e => .error e
    | .ok (cells_h, cells_v, cell_w, cell_h, h_gap, v_gap) =>
      .ok ⟨panel_width, panel_height, cells_h, cells_v, cell_w, cell_h, h_gap, v_gap⟩

/-- `draw_panel_sketch` (lines 93-161): `return True` on success; the
bare `except Exception` (lines 159-161) turns any failure into `False`. -/
def draw_panel_sketch (series_name : String) : Bool :=
  match drawPanelSketchCore series_name with
  | .ok _ => true
  | .error _ => false

theorem layout_ok_components {pw ph : ℚ} {tc a b : ℕ} {cw ch hg vg : ℚ}
    (h : calculate_cell_layout pw ph tc = .ok (a, b, cw, ch, hg, vg)) :
    cw = (footprint pw ph).cell_w ∧ ch = (footprint pw ph).cell_h ∧
      hg = (footprint pw ph).h_gap ∧ vg = (footprint pw ph).v_gap := by
  simp only [calculate_cell_layout] at h
  cases hs : sortConfigs (possible_configs pw ph (footprint pw ph).cell_w
      (footprint pw ph).cell_h (footprint pw ph).h_gap (footprint pw ph).v_gap tc) with
  | nil =>
    rw [hs] at h
    exact absurd h (by simp)
  | cons best rest =>
    rw [hs] at h
    simp only [Except.ok.injEq, Prod.mk.injEq] at h
    exact ⟨h.2.2.1.symm, h.2.2.2.1.symm, h.2.2.2.2.1.symm, h.2.2.2.2.2.symm⟩

/-- C9: the render flow never propagates a failure: it returns `true`
exactly when the body succeeds, and `false` (after logging) whenever the
body fails for any reason (parse failure, infeasible layout, ...). -/
theorem draw_panel_sketch_never_throws (s : String) :
    (∃ d, drawPanelSketchCore s = .ok d ∧ draw_panel_sketch s = true) ∨
    (∃ e, drawPanelSketchCore s = .error e ∧ draw_panel_sketch s = false) := by
  cases hc : drawPanelSketchCore s with
  | ok d => exact Or.inl ⟨d, rfl, by simp [draw_panel_sketch, hc]⟩
  | error e => exact Or.inr ⟨e, rfl, by simp [draw_panel_sketch, hc]⟩

/-! ### Concrete evaluation of the sketch flow on `"200x300-s1p1"` -/

theorem fp_200_300 : footprint 200 300 = ⟨91, 182, 3/2, 3⟩ := by
  rw [footprint, if_neg]
  norm_num

theorem mkConfig_200_300_1 :
    mkConfig 200 300 91 182 (3/2) 3 1 1 =
      some ⟨1, 1, avgUsage 200 300 91 182 (3/2) 3 1 1⟩ := by
  norm_num [mkConfig, reqWidth, reqHeight]

theorem cfgs_200_300_1 :
    possible_configs 200 300 91 182 (3/2) 3 1 =
      [⟨1, 1, avgUsage 200 300 91 182 (3/2) 3 1 1⟩] := by
  rw [possible_configs, show List.range 1 = [0] from rfl]
  norm_num [List.filterMap_cons, mkConfig_200_300_1]

theorem layout_200_300_1 :
    calculate_cell_layout 200 300 1 = .ok (1, 1, 91, 182, 3/2, 3) := by
  simp only [calculate_cell_layout, fp_200_300]
  rw [cfgs_200_300_1]
  rfl

theorem core_200x300 :
    drawPanelSketchCore "200x300-s1p1" = .ok ⟨200, 300, 1, 1, 91, 182, 3/2, 3⟩ := by
  have hp : parse_series_name "200x300-s1p1" = .ok (300, 200, 1, 1) := rfl
  simp only [drawPanelSketchCore, hp]
  norm_num
  rw [layout_200_300_1]

/-- C4 counterexample: for the code `"200x300-s1p1"` the parsed (width,
height) is (300, 200) — landscape — so the orientation on the *original*
dimensions would select the 182×91 landscape footprint; but the sketch
flow actually selects the 91×182 portrait footprint, because the layout
is computed from the swapped dimensions (200, 300). -/
theorem sketch_orientation_on_original_cex :
    parse_series_name "200x300-s1p1" = .ok (300, 200, 1, 1) ∧
    footprint 300 200 = ⟨182, 91, 3, 3/2⟩ ∧
    drawPanelSketchCore "200x300-s1p1" = .ok ⟨200, 300, 1, 1, 91, 182, 3/2, 3⟩ ∧
    (91 : ℚ) ≠ 182 := by
  refine ⟨rfl, ?_, core_200x300, by norm_num⟩
  rw [footprint, if_pos]
  norm_num

/-- C4 (amended): in the sketch flow the footprint/gap selection operates
on the *swapped* (smaller-as-width, larger-as-height) dimensions — the
same ones the layout and the drawing use — so the portrait constants
(91×182, gaps 1.5/3) are always selected. -/
theorem sketch_footprint_from_swapped (code : String) (ow oh tc ps : ℕ) (d : SketchData)
    (hparse : parse_series_name code = .ok (ow, oh, tc, ps))
    (hcore : drawPanelSketchCore code = .ok d) :
    d.panel_width = min ow oh ∧ d.panel_height = max ow oh ∧
      Footprint.mk d.cell_w d.cell_h d.h_gap d.v_gap =
        footprint (d.panel_width : ℚ) (d.panel_height : ℚ) ∧
      d.cell_w = 91 ∧ d.cell_h = 182 ∧ d.h_gap = 3/2 ∧ d.v_gap = 3 := by
  simp only [drawPanelSketchCore, hparse] at hcore
  rw [show (if ow < oh then ow else oh) = min ow oh by split_ifs <;> omega,
    show (if oh > ow then oh else ow) = max ow oh by split_ifs <;> omega] at hcore
  cases hlay : calculate_cell_layout ((min ow oh : ℕ) : ℚ) ((max ow oh : ℕ) : ℚ) tc with
  | error e =>
    rw [hlay] at hcore
    exact absurd hcore (by simp)
  | ok r =>
    obtain ⟨a, b, cw, ch, hg, vg⟩ := r
    rw [hlay] at hcore
    obtain rfl : d = ⟨min ow oh, max ow oh, a, b, cw, ch, hg, vg⟩ := by
      simp only [Except.ok.injEq] at hcore
      exact hcore.symm
    obtain ⟨hcw, hch, hhg, hvg⟩ := layout_ok_components hlay
    have hle : ((min ow oh : ℕ) : ℚ) ≤ ((max ow oh : ℕ) : ℚ) :=
      Nat.cast_le.mpr (min_le_max)
    have hfp : footprint ((min ow oh : ℕ) : ℚ) ((max ow oh : ℕ) : ℚ) = ⟨91, 182, 3/2, 3⟩ := by
      rw [footprint, if_neg (not_lt.mpr hle)]
    refine ⟨rfl, rfl, ?_, ?_, ?_, ?_, ?_⟩
    · show Footprint.mk cw ch hg vg = _
      rw [hcw, hch, hhg, hvg]
    · show cw = 91
      rw [hcw, hfp]
    · show ch = 182
      rw [hch, hfp]
    · show hg = 3/2
      rw [hhg, hfp]
    · show vg = 3
      rw [hvg, hfp]

/-- Witness for the amended C4 theorem at the concrete code
`"200x300-s1p1"`. -/
theorem sketch_footprint_from_swapped_witness :
    (parse_series_name "200x300-s1p1" = .ok (300, 200, 1, 1) ∧
      drawPanelSketchCore "200x300-s1p1" = .ok ⟨200, 300, 1, 1, 91, 182, 3/2, 3⟩) ∧
    ((⟨200, 300, 1, 1, 91, 182, 3/2, 3⟩ : SketchData).panel_width = min 300 200 ∧
      (⟨200, 300, 1, 1, 91, 182, 3/2, 3⟩ : SketchData).panel_height = max 300 200 ∧
      Footprint.mk (⟨200, 300, 1, 1, 91, 182, 3/2, 3⟩ : SketchData).cell_w
          (⟨200, 300, 1, 1, 91, 182, 3/2, 3⟩ : SketchData).cell_h
          (⟨200, 300, 1, 1, 91, 182, 3/2, 3⟩ : SketchData).h_gap
          (⟨200, 300, 1, 1, 91, 182, 3/2, 3⟩ : SketchData).v_gap =
        footprint ((⟨200, 300, 1, 1, 91, 182, 3/2, 3⟩ : SketchData).panel_width : ℚ)
          ((⟨200, 300, 1, 1, 91, 182, 3/2, 3⟩ : SketchData).panel_height : ℚ) ∧
      (⟨200, 300, 1, 1, 91, 182, 3/2, 3⟩ : SketchData).cell_w = 91 ∧
      (⟨200, 300, 1, 1, 91, 182, 3/2, 3⟩ : SketchData).cell_h = 182 ∧
      (⟨200, 300, 1, 1, 91, 182, 3/2, 3⟩ : SketchData).h_gap = 3/2 ∧
      (⟨200, 300, 1, 1, 91, 182, 3/2, 3⟩ : SketchData).v_gap = 3) :=
  ⟨⟨rfl, core_200x300⟩,
    sketch_footprint_from_swapped "200x300-s1p1" 300 200 1 1 _ rfl core_200x300⟩

/-! ### Declarative regex patterns and parser lemmas -/

/-- A non-empty run of decimal digits (what `(\d+)` captures). -/
def DigitRun (l : List Char) : Prop := l ≠ [] ∧ ∀ c ∈ l, c.isDigit = true

/-- The string starts with the `(\d+)x(\d+)` dimension pattern. -/
def HasDimPattern (code : String) : Prop :=
  ∃ d1 d2 rest, code.data = d1 ++ 'x' :: (d2 ++ rest) ∧ DigitRun d1 ∧ DigitRun d2

/-- The string contains `s(\d+)p(\d+)` (case-insensitively) somewhere. -/
def HasSPPattern (code : String) : Prop :=
  ∃ pre c1 d1 c2 d2 rest, code.data = pre ++ c1 :: (d1 ++ c2 :: (d2 ++ rest)) ∧
    (c1 = 's' ∨ c1 = 'S') ∧ (c2 = 'p' ∨ c2 = 'P') ∧ DigitRun d1 ∧ DigitRun d2

theorem digitRun_split (d rest : List Char)
    (hd : ∀ c ∈ d, c.isDigit = true)
    (hrest : ∀ c ∈ rest.take 1, c.isDigit = false) :
    (d ++ rest).takeWhile Char.isDigit = d ∧ (d ++ rest).dropWhile Char.isDigit = rest := by
  have htw : rest.takeWhile Char.isDigit = [] := by
    cases rest with
    | nil => rfl
    | cons c t =>
      exact List.takeWhile_cons_of_neg (by simp [hrest c (by simp)])
  have hdw : rest.dropWhile Char.isDigit = rest := by
    cases rest with
    | nil => rfl
    | cons c t =>
      exact List.dropWhile_cons_of_neg (by simp [hrest c (by simp)])
  constructor
  · rw [List.takeWhile_append_of_pos hd, htw, List.append_nil]
  · rw [List.dropWhile_append_of_pos hd, hdw]

theorem matchDims_some_decomp {s : List Char} {g1 g2 : ℕ}
    (h : matchDims s = some (g1, g2)) :
    ∃ d1 d2 rest, s = d1 ++ 'x' :: (d2 ++ rest) ∧ DigitRun d1 ∧ DigitRun d2 ∧
      g1 = digitsToNat d1 ∧ g2 = digitsToNat d2 := by
  unfold matchDims at h
  by_cases h1 : (s.takeWhile Char.isDigit).isEmpty
  · rw [if_pos h1] at h
    exact absurd h (by simp)
  · rw [if_neg h1] at h
    split at h
    next r2 heq =>
      by_cases h2 : (r2.takeWhile Char.isDigit).isEmpty
      · rw [if_pos h2] at h
        exact absurd h (by simp)
      · rw [if_neg h2] at h
        obtain ⟨hg1, hg2⟩ : digitsToNat (s.takeWhile Char.isDigit) = g1 ∧
            digitsToNat (r2.takeWhile Char.isDigit) = g2 := by
          simpa using h
        refine ⟨s.takeWhile Char.isDigit, r2.takeWhile Char.isDigit,
          r2.dropWhile Char.isDigit, ?_, ⟨?_, ?_⟩, ⟨?_, ?_⟩, hg1.symm, hg2.symm⟩
        · calc s = s.takeWhile Char.isDigit ++ s.dropWhile Char.isDigit :=
            (List.takeWhile_append_dropWhile _ _).symm
          _ = s.takeWhile Char.isDigit ++ ('x' :: r2) := by rw [heq]
          _ = s.takeWhile Char.isDigit ++
              ('x' :: (r2.takeWhile Char.isDigit ++ r2.dropWhile Char.isDigit)) := by
            rw [List.takeWhile_append_dropWhile]
        · simpa using h1
        · exact fun c hc => List.mem_takeWhile_imp hc
        · simpa using h2
        · exact fun c hc => List.mem_takeWhile_imp hc
    next hne =>
      exact absurd h (by simp)

theorem matchSPAt_some_decomp {s : List Char} {g1 g2 : ℕ}
    (h : matchSPAt s = some (g1, g2)) :
    ∃ c1 d1 c2 d2 rest, s = c1 :: (d1 ++ c2 :: (d2 ++ rest)) ∧
      (c1 = 's' ∨ c1 = 'S') ∧ (c2 = 'p' ∨ c2 = 'P') ∧ DigitRun d1 ∧ DigitRun d2 ∧
      g1 = digitsToNat d1 ∧ g2 = digitsToNat d2 := by
  cases s with
  | nil => simp [matchSPAt] at h
  | cons c r =>
    simp only [matchSPAt] at h
    by_cases hcs : c = 's' ∨ c = 'S'
    · rw [if_pos hcs] at h
      by_cases h1 : (r.takeWhile Char.isDigit).isEmpty
      · rw [if_pos h1] at h
        exact absurd h (by simp)
      · rw [if_neg h1] at h
        split at h
        next c2 r2 heq =>
          by_cases hcp : c2 = 'p' ∨ c2 = 'P'
          · rw [if_pos hcp] at h
            by_cases h2 : (r2.takeWhile Char.isDigit).isEmpty
            · rw [if_pos h2] at h
              exact absurd h (by simp)
            · rw [if_neg h2] at h
              obtain ⟨hg1, hg2⟩ : digitsToNat (r.takeWhile Char.isDigit) = g1 ∧
                  digitsToNat (r2.takeWhile Char.isDigit) = g2 := by
                simpa using h
              refine ⟨c, r.takeWhile Char.isDigit, c2, r2.takeWhile Char.isDigit,
                r2.dropWhile Char.isDigit, ?_, hcs, hcp, ⟨?_, ?_⟩, ⟨?_, ?_⟩,
                hg1.symm, hg2.symm⟩
              · have hr : r = r.takeWhile Char.isDigit ++ (c2 :: r2) := by
                  conv_lhs => rw [← List.takeWhile_append_dropWhile Char.isDigit r]
                  rw [heq]
                rw [show r2 = r2.takeWhile Char.isDigit ++ r2.dropWhile Char.isDigit from
                  (List.takeWhile_append_dropWhile _ _).symm] at hr
                conv_lhs => rw [hr]
              · simpa using h1
              · exact fun c hc => List.mem_takeWhile_imp hc
              · simpa using h2
              · exact fun c hc => List.mem_takeWhile_imp hc
          · rw [if_neg hcp] at h
            exact absurd h (by simp)
        next hne =>
          exact absurd h (by simp)
    · rw [if_neg hcs] at h
      exact absurd h (by simp)

theorem searchSP_some_decomp {s : List Char} {g1 g2 : ℕ}
    (h : searchSP s = some (g1, g2)) :
    ∃ pre c1 d1 c2 d2 rest, s = pre ++ c1 :: (d1 ++ c2 :: (d2 ++ rest)) ∧
      (c1 = 's' ∨ c1 = 'S') ∧ (c2 = 'p' ∨ c2 = 'P') ∧ DigitRun d1 ∧ DigitRun d2 ∧
      g1 = digitsToNat d1 ∧ g2 = digitsToNat d2 := by
  induction s with
  | nil => simp [searchSP] at h
  | cons c r ih =>
    rw [searchSP] at h
    cases hm : matchSPAt (c :: r) with
    | some x =>
      rw [hm] at h
      obtain rfl : x = (g1, g2) := by simpa using h
      obtain ⟨c1, d1, c2, d2, rest, heq, hc1, hc2, hd1, hd2, hg1, hg2⟩ :=
        matchSPAt_some_decomp hm
      exact ⟨[], c1, d1, c2, d2, rest, by simpa using heq, hc1, hc2, hd1, hd2, hg1, hg2⟩
    | none =>
      rw [hm] at h
      obtain ⟨pre, c1, d1, c2, d2, rest, heq, hc1, hc2, hd1, hd2, hg1, hg2⟩ := ih h
      exact ⟨c :: pre, c1, d1, c2, d2, rest, by rw [List.cons_append, heq], hc1, hc2,
        hd1, hd2, hg1, hg2⟩

/-- C7: whenever either required pattern is absent, the parser fails with
an error (a `ValueError` in the source) rather than returning a default. -/
theorem parse_fails_on_missing_pattern (code : String)
    (hmiss : ¬ HasDimPattern code ∨ ¬ HasSPPattern code) :
    ∃ msg, parse_series_name code = .error msg := by
  cases hdim : matchDims code.data with
  | none =>
    refine ⟨"Cannot parse dimensions from: " ++ code, ?_⟩
    simp only [parse_series_name, hdim]
  | some g =>
    obtain ⟨g1, g2⟩ := g
    have hdimP : HasDimPattern code := by
      obtain ⟨d1, d2, rest, heq, hd1, hd2, -, -⟩ := matchDims_some_decomp hdim
      exact ⟨d1, d2, rest, heq, hd1, hd2⟩
    cases hsp : searchSP code.data with
    | none =>
      refine ⟨"Cannot parse cell configuration from: " ++ code, ?_⟩
      simp only [parse_series_name, hdim, hsp]
    | some g' =>
      obtain ⟨q1, q2⟩ := g'
      have hspP : HasSPPattern code := by
        obtain ⟨pre, c1, d1, c2, d2, rest, heq, hc1, hc2, hd1, hd2, -, -⟩ :=
          searchSP_some_decomp hsp
        exact ⟨pre, c1, d1, c2, d2, rest, heq, hc1, hc2, hd1, hd2⟩
      rcases hmiss with hn | hn
      · exact absurd hdimP hn
      · exact absurd hspP hn

/-- Witness for C7 at the empty string, which has no dimension pattern. -/
theorem parse_fails_on_missing_pattern_witness :
    (¬ HasDimPattern "" ∨ ¬ HasSPPattern "") ∧
      ∃ msg, parse_series_name "" = .error msg :=
  have hnd : ¬ HasDimPattern "" := by
    rintro ⟨d1, d2, rest, heq, ⟨hne, -⟩, -⟩
    simp at heq
  ⟨Or.inl hnd, parse_fails_on_missing_pattern "" (Or.inl hnd)⟩

/-! ### Evaluating the parser on well-formed codes (C1) -/

theorem matchSPAt_not_s {c : Char} (r : List Char) (hc : ¬(c = 's' ∨ c = 'S')) :
    matchSPAt (c :: r) = none := by
  simp only [matchSPAt]
  rw [if_neg hc]

theorem searchSP_append_of_no_s (pre rest : List Char)
    (hpre : ∀ c ∈ pre, ¬(c = 's' ∨ c = 'S')) :
    searchSP (pre ++ rest) = searchSP rest := by
  induction pre with
  | nil => rfl
  | cons c p ih =>
    rw [List.cons_append, searchSP, matchSPAt_not_s _ (hpre c (by simp))]
    exact ih (fun c hc => hpre c (by simp [hc]))

theorem matchDims_structured (d1 d2 rest : List Char) (hd1 : DigitRun d1) (hd2 : DigitRun d2)
    (hrest : ∀ c ∈ rest.take 1, c.isDigit = false) :
    matchDims (d1 ++ 'x' :: (d2 ++ rest)) = some (digitsToNat d1, digitsToNat d2) := by
  obtain ⟨hne1, hdig1⟩ := hd1
  obtain ⟨hne2, hdig2⟩ := hd2
  have hs1 := digitRun_split d1 ('x' :: (d2 ++ rest)) hdig1
    (by intro c hc; simp at hc; subst hc; decide)
  have hs2 := digitRun_split d2 rest hdig2 hrest
  unfold matchDims
  rw [hs1.1, hs1.2, if_neg (by simpa using hne1)]
  show (if ((d2 ++ rest).takeWhile Char.isDigit).isEmpty then none
    else some (digitsToNat d1, digitsToNat ((d2 ++ rest).takeWhile Char.isDigit))) = _
  rw [hs2.1, if_neg (by simpa using hne2)]

theorem matchSPAt_token (d3 d4 tail : List Char) (hd3 : DigitRun d3) (hd4 : DigitRun d4)
    (htail : ∀ c ∈ tail.take 1, c.isDigit = false) :
    matchSPAt ('s' :: (d3 ++ 'p' :: (d4 ++ tail))) =
      some (digitsToNat d3, digitsToNat d4) := by
  obtain ⟨hne3, hdig3⟩ := hd3
  obtain ⟨hne4, hdig4⟩ := hd4
  have hs3 := digitRun_split d3 ('p' :: (d4 ++ tail)) hdig3
    (by intro c hc; simp at hc; subst hc; decide)
  have hs4 := digitRun_split d4 tail hdig4 htail
  simp only [matchSPAt]
  rw [if_pos (Or.inl trivial), hs3.1, hs3.2, if_neg (by simpa using hne3)]
  show (if ('p' = 'p' ∨ 'p' = 'P') then
      if ((d4 ++ tail).takeWhile Char.isDigit).isEmpty then none
      else some (digitsToNat d3, digitsToNat ((d4 ++ tail).takeWhile Char.isDigit))
    else none) = _
  rw [if_pos (Or.inl rfl), hs4.1, if_neg (by simpa using hne4)]

/-- C1 (amended): for every well-formed code
`<d1>x<d2> … s<d3>p<d4> …`, the parser succeeds and returns the *second*
number as the width (first component) and the *first* number as the
height (second component), together with totalCells = S×P and parallel
strings P.  (The source assigns `height = group(1)`, `width = group(2)`.) -/
theorem parse_well_formed_first_number_is_height (code : String)
    (d1 d2 d3 d4 mid tail : List Char)
    (hcode : code.data = d1 ++ 'x' :: (d2 ++ (mid ++ 's' :: (d3 ++ 'p' :: (d4 ++ tail)))))
    (hd1 : DigitRun d1) (hd2 : DigitRun d2) (hd3 : DigitRun d3) (hd4 : DigitRun d4)
    (hmid : ∀ c ∈ mid, ¬(c = 's' ∨ c = 'S'))
    (hmid_head : ∀ c ∈ mid.take 1, c.isDigit = false)
    (htail_head : ∀ c ∈ tail.take 1, c.isDigit = false) :
    parse_series_name code =
      .ok (digitsToNat d2, digitsToNat d1,
        digitsToNat d3 * digitsToNat d4, digitsToNat d4) := by
  have hdim : matchDims code.data = some (digitsToNat d1, digitsToNat d2) := by
    rw [hcode]
    apply matchDims_structured d1 d2 _ ⟨hd1.1, hd1.2⟩ ⟨hd2.1, hd2.2⟩
    intro c hc
    cases mid with
    | nil =>
      simp at hc
      subst hc
      decide
    | cons m ms =>
      simp at hc
      subst hc
      exact hmid_head _ (by simp)
  have hsp : searchSP code.data = some (digitsToNat d3, digitsToNat d4) := by
    rw [hcode]
    have hassoc : d1 ++ 'x' :: (d2 ++ (mid ++ 's' :: (d3 ++ 'p' :: (d4 ++ tail)))) =
        (d1 ++ 'x' :: (d2 ++ mid)) ++ 's' :: (d3 ++ 'p' :: (d4 ++ tail)) := by
      simp [List.append_assoc]
    rw [hassoc, searchSP_append_of_no_s]
    · rw [searchSP, matchSPAt_token d3 d4 tail hd3 hd4 htail_head]
    · intro c hc
      simp only [List.mem_append, List.mem_cons] at hc
      rcases hc with h1 | h2 | h3 | h4
      · rintro (rfl | rfl) <;> exact absurd (hd1.2 _ h1) (by decide)
      · subst h2
        decide
      · rintro (rfl | rfl) <;> exact absurd (hd2.2 _ h3) (by decide)
      · exact hmid c h4
  simp only [parse_series_name, hdim, hsp]

/-- C1 counterexample: for the well-formed code `"1745x670-A-s54p1"`
(W = 1745, H = 670, S = 54, P = 1) the parser does *not* return the first
number in the width position: it returns (670, 1745, 54, 1), the claimed
(1745, 670, 54, 1) being a different value. -/
theorem parse_first_number_as_width_cex :
    parse_series_name "1745x670-A-s54p1" = .ok (670, 1745, 54, 1) ∧
      parse_series_name "1745x670-A-s54p1" ≠ .ok (1745, 670, 54, 1) := by
  refine ⟨rfl, ?_⟩
  intro hc
  rw [show parse_series_name "1745x670-A-s54p1" = .ok (670, 1745, 54, 1) from rfl] at hc
  exact absurd (Except.ok.inj hc) (by decide)

/-- Witness for the amended C1 theorem at the code `"1x2-s3p4"`. -/
theorem parse_well_formed_first_number_is_height_witness :
    ("1x2-s3p4".data =
        ['1'] ++ 'x' :: (['2'] ++ (['-'] ++ 's' :: (['3'] ++ 'p' :: (['4'] ++ []))))) ∧
      parse_series_name "1x2-s3p4" = .ok (2, 1, 12, 4) :=
  ⟨by decide,
    parse_well_formed_first_number_is_height "1x2-s3p4" ['1'] ['2'] ['3'] ['4'] ['-'] []
      (by decide) ⟨by decide, by decide⟩ ⟨by decide, by decide⟩ ⟨by decide, by decide⟩
      ⟨by decide, by decide⟩ (by decide) (by decide) (by decide)⟩

/-! ### `generate_dual_iv_curves` (graph_builder.py lines 10-132)

File I/O (tempfile, shutil, openpyxl, pandas) is modelled with an
explicit state: the caller's spreadsheet content, the stream position of
a file-object source, and the temporary copy (present or deleted).
Python floats that can be NaN or ±inf are modelled by `PyVal`; `pd.isna`
is true only for NaN. -/

/-- A Python float as read from a spreadsheet cell: NaN, ±infinity, or a
finite value (modelled exactly over ℚ). -/
inductive PyVal where
  | nan : PyVal
  | inf : PyVal
  | ninf : PyVal
  | num : ℚ → PyVal
deriving Repr, DecidableEq

/-- `pd.isna` (line 81): true only for NaN, not for ±inf. -/
def PyVal.isna : PyVal → Bool
  | .nan => true
  | _ => false

/-- A spreadsheet cell value: a float, or a non-numeric string (which
`float(...)` cannot coerce). -/
inductive CellVal where
  | num : PyVal → CellVal
  | str : String → CellVal
deriving Repr, DecidableEq

/-- Sheet 2 of a workbook: an association list from cell addresses to
values (later writes shadow earlier ones). -/
abbrev Workbook := List (String × CellVal)

/-- `ws['D18'] = v` (openpyxl write). -/
def writeCell (wb : Workbook) (addr : String) (v : CellVal) : Workbook :=
  (addr, v) :: wb

/-- Reading a cell; absent cells read back as NaN (pandas). -/
def lookupCell (wb : Workbook) (addr : String) : CellVal :=
  match wb.find? (fun e => e.1 == addr) with
  | some e => e.2
  | none => .num .nan

/-- `float(df_raw.iloc[...])` (lines 76-77): raises on a non-numeric
string, otherwise yields the float (NaN and ±inf included). -/
def readCellFloat (wb : Workbook) (addr : String) : Except String PyVal :=
  match lookupCell wb addr with
  | .num p => .ok p
  | .str s => .error ("could not convert string to float: " ++ s)

/-- Lines 52-66: conditional write-backs into sheet 2 of the temporary
copy — Voc → D18, series string → D19, Isc → D21, Pmax → D24.
(`series_name` is a string in all call sites, so the `is not None` guard
on line 56 always passes.) -/
def applyWrites (wb : Workbook) (series_name : String)
    (voc_input isc_input pmax_input : Option PyVal) : Workbook :=
  let wb1 := match voc_input with
    | some v => writeCell wb "D18" (.num v)
    | none => wb
  let wb2 := writeCell wb1 "D19" (.str series_name)
  let wb3 := match isc_input with
    | some v => writeCell wb2 "D21" (.num v)
    | none => wb2
  match pmax_input with
  | some v => writeCell wb3 "D24" (.num v)
  | none => wb3

/-- `np.linspace(0, stop, 100)` (lines 102, 118): 100 evenly spaced
samples from 0 to `stop` inclusive; sample k is `stop * k / 99`. -/
def linspace100 (stop : ℚ) : List ℚ :=
  (List.range 100).map (fun k : ℕ => stop * (k : ℚ) / 99)

/-- Line 105: `i_curr = (isc * (G/1000)) * (1 - (v/voc)**4)`. -/
def irrCurrent (isc voc G v : ℚ) : ℚ := isc * (G / 1000) * (1 - (v / voc) ^ 4)

/-- One irradiance curve (lines 102-106). -/
def irrCurve (voc isc G : ℚ) : List (ℚ × ℚ) :=
  (linspace100 voc).map (fun v => (v, irrCurrent isc voc G v))

/-- Line 103: the fixed irradiance sweep, in W/m². -/
def IRRADIANCES : List ℚ := [1000, 800, 600, 400, 200]

/-- The irradiance curve family, one curve per level. -/
def irradianceFamily (voc isc : ℚ) : List (ℚ × List (ℚ × ℚ)) :=
  IRRADIANCES.map (fun G => (G, irrCurve voc isc G))

/-- Line 114: the fixed temperature sweep, in °C. -/
def TEMPS : List ℚ := [70, 50, 25, 0]

/-- Lines 114-120: temperature-adjusted Voc and Isc and the resulting
curve (`v_t = voc*(1 - 0.003*(T-25))`, `i_t = isc*(1 + 0.0005*(T-25))`). -/
def tempCurve (voc isc T : ℚ) : List (ℚ × ℚ) :=
  (linspace100 (voc * (1 - 0.003 * (T - 25)))).map
    (fun v => (v, isc * (1 + 0.0005 * (T - 25)) *
      (1 - (v / (voc * (1 - 0.003 * (T - 25)))) ^ 4)))

/-- The temperature curve family. -/
def temperatureFamily (voc isc : ℚ) : List (ℚ × List (ℚ × ℚ)) :=
  TEMPS.map (fun T => (T, tempCurve voc isc T))

/-- The plotted curve data when both ratings are finite numbers.
Non-finite ratings make numpy produce garbage arrays without raising
(abstracted as `none`) — the function still reports success for them. -/
def curvesOf (voc isc : PyVal) :
    Option (List (ℚ × List (ℚ × ℚ)) × List (ℚ × List (ℚ × ℚ))) :=
  match voc, isc with
  | .num a, .num b => some (irradianceFamily a b, temperatureFamily a b)
  | _, _ => none

/-- The observable state of the spreadsheet source and the temp file. -/
structure GenState where
  srcWb : Workbook
  srcPos : ℕ
  temp : Option Workbook
deriving Repr, DecidableEq

/-- The function's result: the returned boolean and the plotted curves. -/
structure GenOutcome where
  success : Bool
  curves : Option (List (ℚ × List (ℚ × ℚ)) × List (ℚ × List (ℚ × ℚ)))
deriving Repr, DecidableEq

/-- `generate_dual_iv_curves` (graph_builder.py lines 10-132) as a state
transformer.  Lines 30-44: copy the source to a fresh temp file — a
file-object source is `seek(0)`-ed before the copy (the copy reads it to
the end) and `seek(0)`-ed again after, so its position ends at 0; a
path-named source is opened separately and left untouched.  Lines 46-70:
apply the write-backs to the temp copy and save it.  Lines 72-83: read
Voc (D18) and Isc (D21) back from the temp copy; a coercion error is
caught by the `except` (lines 85-89) and reported as `False`; a NaN in
either rating is reported as `False` (lines 81-83).  Lines 90-96: the
`finally` block deletes the temp file on every path.  Lines 98-132:
synthesize the curves and report `True`. -/
def generate_dual_iv_curves (st : GenState) (isFileObject : Bool) (series_name : String)
    (voc_input isc_input pmax_input : Option PyVal) : GenOutcome × GenState :=
  -- lines 30-44: temp copy created, file-object source re-seeked to 0
  let st1 : GenState :=
    { srcWb := st.srcWb, srcPos := if isFileObject then 0 else st.srcPos,
      temp := some st.srcWb }
  -- lines 46-70: write-backs applied to the temp copy, workbook saved
  let wb := applyWrites st.srcWb series_name voc_input isc_input pmax_input
  let st2 : GenState := { st1 with temp := some wb }
  -- lines 90-96: the `finally` block deletes the temp file on every path
  let final : GenState := { st2 with temp := none }
  -- lines 72-83: read back and validate, then lines 98-132: plot
  match readCellFloat wb "D18", readCellFloat wb "D21" with
  | .ok voc, .ok isc =>
    if voc.isna || isc.isna then
      ({ success := false, curves := none }, final)
    else
      ({ success := true, curves := curvesOf voc isc }, final)
  | _, _ => ({ success := false, curves := none }, final)

/-- C5 counterexample: with a negative open-circuit voltage (−1) and a
positive short-circuit current (5) written back, the validation — which
only checks `pd.isna` — passes, and the function reports success.  The
claim requires it to report `False` for a negative rating. -/
theorem generate_accepts_negative_rating_cex :
    (generate_dual_iv_curves ⟨[], 0, none⟩ false "X"
        (some (.num (-1))) (some (.num 5)) none).1.success = true ∧
      (generate_dual_iv_curves ⟨[], 0, none⟩ false "X"
        (some .inf) (some (.num 5)) none).1.success = true := by
  constructor <;> rfl

/-- C5 (amended): curve synthesis reports `False` and produces no curves
exactly when a rating read back from D18/D21 fails float coercion (a
non-numeric string) or is NaN after coercion.  Zero, negative and
infinite ratings pass the check and the function reports success. -/
theorem generate_false_iff_nan_or_unreadable (st : GenState) (fo : Bool)
    (series : String) (vi ii pm : Option PyVal) :
    ((generate_dual_iv_curves st fo series vi ii pm).1.success = false ∧
        (generate_dual_iv_curves st fo series vi ii pm).1.curves = none) ↔
      ¬ ∃ voc isc,
        readCellFloat (applyWrites st.srcWb series vi ii pm) "D18" = .ok voc ∧
        readCellFloat (applyWrites st.srcWb series vi ii pm) "D21" = .ok isc ∧
        voc.isna = false ∧ isc.isna = false := by
  cases hv : readCellFloat (applyWrites st.srcWb series vi ii pm) "D18" with
  | error e =>
    simp [generate_dual_iv_curves, hv]
  | ok voc =>
    cases hi : readCellFloat (applyWrites st.srcWb series vi ii pm) "D21" with
    | error e =>
      simp [generate_dual_iv_curves, hv, hi]
    | ok isc =>
      cases hvna : voc.isna <;> cases hina : isc.isna <;>
        simp [generate_dual_iv_curves, hv, hi, hvna, hina]

/-- C6: for every positive Voc and Isc and each irradiance level G in the
sweep {1000, 800, 600, 400, 200}: the curve has exactly 100 samples;
sample k has voltage Voc·k/99 (hence evenly spaced, from 0 to Voc
inclusive, with constant step Voc/99); every sample's current equals
Isc·(G/1000)·(1 − (v/Voc)⁴); in particular the first sample is
(0, Isc·(G/1000)) and the last is (Voc, 0). -/
theorem irradiance_sweep_samples (voc isc : ℚ) (hvoc : 0 < voc) (hisc : 0 < isc)
    (G : ℚ) (hG : G ∈ IRRADIANCES) :
    (irrCurve voc isc G).length = 100 ∧
    (∀ k : ℕ, k < 100 → (irrCurve voc isc G)[k]? =
      some (voc * (k : ℚ) / 99, irrCurrent isc voc G (voc * (k : ℚ) / 99))) ∧
    (∀ k : ℕ, voc * ((k : ℚ) + 1) / 99 - voc * (k : ℚ) / 99 = voc / 99) ∧
    (∀ p ∈ irrCurve voc isc G, p.2 = isc * (G / 1000) * (1 - (p.1 / voc) ^ 4)) ∧
    (irrCurve voc isc G)[0]? = some (0, isc * (G / 1000)) ∧
    (irrCurve voc isc G)[99]? = some (voc, 0) := by
  have hv0 : voc ≠ 0 := ne_of_gt hvoc
  have hidx : ∀ k : ℕ, k < 100 → (irrCurve voc isc G)[k]? =
      some (voc * (k : ℚ) / 99, irrCurrent isc voc G (voc * (k : ℚ) / 99)) := by
    intro k hk
    simp only [irrCurve, linspace100, List.getElem?_map, List.getElem?_range hk,
      Option.map_some']
  refine ⟨?_, hidx, ?_, ?_, ?_, ?_⟩
  · simp only [irrCurve, linspace100, List.length_map, List.length_range]
  · intro k
    ring
  · intro p hp
    simp only [irrCurve, List.mem_map] at hp
    obtain ⟨v, -, rfl⟩ := hp
    rfl
  · rw [hidx 0 (by norm_num)]
    norm_num [irrCurrent]
  · rw [hidx 99 (by norm_num)]
    have h99 : voc * ((99 : ℕ) : ℚ) / 99 = voc := by
      norm_num
    rw [h99]
    norm_num [irrCurrent, div_self hv0]

/-- Witness for C6 at Voc = 2, Isc = 3, G = 800: note the first sample's
current is 3·(800/1000) = 0.8·Isc. -/
theorem irradiance_sweep_samples_witness :
    ((0 : ℚ) < 2 ∧ (0 : ℚ) < 3 ∧ (800 : ℚ) ∈ IRRADIANCES) ∧
    ((irrCurve 2 3 800).length = 100 ∧
      (∀ k : ℕ, k < 100 → (irrCurve 2 3 800)[k]? =
        some (2 * (k : ℚ) / 99, irrCurrent 3 2 800 (2 * (k : ℚ) / 99))) ∧
      (∀ k : ℕ, 2 * ((k : ℚ) + 1) / 99 - 2 * (k : ℚ) / 99 = 2 / 99) ∧
      (∀ p ∈ irrCurve 2 3 800, p.2 = 3 * (800 / 1000) * (1 - (p.1 / 2) ^ 4)) ∧
      (irrCurve 2 3 800)[0]? = some (0, 3 * (800 / 1000)) ∧
      (irrCurve 2 3 800)[99]? = some (2, 0)) :=
  ⟨⟨by norm_num, by norm_num, by norm_num [IRRADIANCES]⟩,
    irradiance_sweep_samples 2 3 (by norm_num) (by norm_num) 800
      (by norm_num [IRRADIANCES])⟩

/-- C10: the synthesis never modifies the caller's spreadsheet source:
the write-backs touch only the temporary copy, the temporary copy is
deleted before returning on every path, a file-object source is left
positioned at offset 0, and a path-named source's position is untouched. -/
theorem generate_preserves_source (st : GenState) (fo : Bool) (series : String)
    (vi ii pm : Option PyVal) :
    (generate_dual_iv_curves st fo series vi ii pm).2.srcWb = st.srcWb ∧
    (generate_dual_iv_curves st fo series vi ii pm).2.temp = none ∧
    (fo = true → (generate_dual_iv_curves st fo series vi ii pm).2.srcPos = 0) ∧
    (fo = false → (generate_dual_iv_curves st fo series vi ii pm).2.srcPos = st.srcPos) := by
  have key : (generate_dual_iv_curves st fo series vi ii pm).2 =
      { srcWb := st.srcWb, srcPos := if fo then 0 else st.srcPos, temp := none } := by
    cases hv : readCellFloat (applyWrites st.srcWb series vi ii pm) "D18" with
    | error e =>
      cases hi : readCellFloat (applyWrites st.srcWb series vi ii pm) "D21" <;>
        simp [generate_dual_iv_curves, hv, hi]
    | ok voc =>
      cases hi : readCellFloat (applyWrites st.srcWb series vi ii pm) "D21" with
      | error e => simp [generate_dual_iv_curves, hv, hi]
      | ok isc =>
        cases hvna : voc.isna <;> cases hina : isc.isna <;>
          simp [generate_dual_iv_curves, hv, hi, hvna, hina]
  refine ⟨by rw [key], by rw [key], ?_, ?_⟩
  · intro h
    rw [key]
    simp [h]
  · intro h
    rw [key]
    simp [h]

/-- Witness for C10 at a concrete one-cell source read through a file
object. -/
theorem generate_preserves_source_witness :
    (generate_dual_iv_curves ⟨[("A1", CellVal.num (.num 1))], 5, none⟩ true "S"
        none none none).2.srcWb = [("A1", CellVal.num (.num 1))] ∧
    (generate_dual_iv_curves ⟨[("A1", CellVal.num (.num 1))], 5, none⟩ true "S"
        none none none).2.temp = none ∧
    (generate_dual_iv_curves ⟨[("A1", CellVal.num (.num 1))], 5, none⟩ true "S"
        none none none).2.srcPos = 0 :=
  have h := generate_preserves_source ⟨[("A1", CellVal.num (.num 1))], 5, none⟩
    true "S" none none none
  ⟨h.1, h.2.1, h.2.2.1 rfl⟩

end Solarix
